import Mathlib

/-!
# Verification of the house-price-prediction pipeline

Shallow embedding of the data-processing pipeline of
`house_price_pred.ipynb`: a pandas dataframe is modelled as a list of
named columns whose cells are optional values (`none` models `NaN`),
numeric values are exact rationals, and the cleaning / encoding /
feature-selection / training stages are modelled as Lean functions,
returning `Option` where the corresponding pandas call can raise.
-/

attribute [local semireducible] Rat.mul Rat.add Rat.sub Rat.inv Rat.ofScientific

/-- A cell value of a dataframe: either a string (pandas `object` dtype)
or an exact rational standing for a numeric value. -/
inductive CellVal where
  | str : String → CellVal
  | num : Rat → CellVal
deriving DecidableEq, Repr

/-- A dataframe column: a name, a dtype flag (`isCat = true` models the
pandas `object` dtype selected by `select_dtypes(include=['object'])`),
and a list of cells where `none` models a missing value (`NaN`). -/
structure Col where
  name : String
  isCat : Bool
  cells : List (Option CellVal)
deriving DecidableEq, Repr

/-- A dataframe is a list of columns (all of equal length in a real
pandas frame; the claims that need this state it explicitly). -/
abbrev Frame := List Col

/-- The column labels of a frame, in order (`df.columns`). -/
def namesOf (df : Frame) : List String := df.map Col.name

/-- `df[col].isnull().mean()`: the fraction of missing cells of a column.
Rational division by zero yields `0`, which agrees with pandas on the
0-row frame: there the mean is `NaN` and `NaN > threshold` is false, so
the column is kept, exactly as a fraction of `0` is. -/
def missingFraction (c : Col) : Rat :=
  (((c.cells.filter (fun o => o.isNone)).length : Rat)) / ((c.cells.length : Rat))

/-- `threshold = 0.3`, the missingness threshold of the notebook. -/
def threshold : Rat := 3/10

/-- `missing_percentages[col] > threshold`: the column is in
`columns_to_drop`. -/
def shouldDrop (c : Col) : Bool := decide (missingFraction c > threshold)

/-- `df.drop(columns=columns_to_drop)`. -/
def dropHighMissing (df : Frame) : Frame :=
  df.filter (fun c => !(shouldDrop c))

/-- `df_dropped.drop(['Id'], axis=1)`: removes every column labelled
`Id`; pandas raises `KeyError` when no such column exists, modelled by
`none`. -/
def dropId (df : Frame) : Option Frame :=
  if "Id" ∈ namesOf df then some (df.filter (fun c => c.name ≠ "Id")) else none

/-- Lexicographic comparison of character lists by code point: the
order Python uses on `str` and numpy uses to sort string arrays. -/
def strLE : List Char → List Char → Bool
  | [], _ => true
  | _ :: _, [] => false
  | a :: as, b :: bs =>
    if a = b then strLE as bs else decide (a.toNat < b.toNat)

/-- A total order on cell values used for scikit-learn's tie-breaking
and category sorting: numbers before strings, numbers by `≤`, strings
lexicographically. -/
def valLE : CellVal → CellVal → Bool
  | CellVal.num a, CellVal.num b => decide (a ≤ b)
  | CellVal.num _, CellVal.str _ => true
  | CellVal.str _, CellVal.num _ => false
  | CellVal.str a, CellVal.str b => strLE a.data b.data

/-- Choose, among the candidate values, one of maximal count, breaking
ties towards the `valLE`-smallest (`SimpleImputer(strategy=
"most_frequent")` picks the smallest of the most frequent values). -/
def pickMode (cnt : CellVal → Nat) : List CellVal → Option CellVal
  | [] => none
  | v :: vs =>
    match pickMode cnt vs with
    | none => some v
    | some w =>
      if cnt v > cnt w ∨ (cnt v = cnt w ∧ valLE v w) then some v else some w

/-- The most frequent non-missing value of a column, `none` when the
column has no non-missing value. -/
def modeVal (cells : List (Option CellVal)) : Option CellVal :=
  let vs := cells.filterMap id
  pickMode (fun v => vs.count v) vs.dedup

/-- The numeric (non-missing) entries of a column. -/
def numsOf (cells : List (Option CellVal)) : List Rat :=
  cells.filterMap (fun o =>
    match o with
    | some (CellVal.num q) => some q
    | _ => none)

/-- `df[col].mean()`: the mean of the non-missing numeric entries,
`none` when there is none (pandas: `NaN`, and `fillna(NaN)` is a no-op). -/
def colMean (cells : List (Option CellVal)) : Option Rat :=
  let ns := numsOf cells
  if ns.isEmpty then none else some (ns.sum / (ns.length : Rat))

/-- Mode imputation of one categorical column
(`SimpleImputer(strategy="most_frequent").fit_transform`). Numeric
columns and columns with no observed value are left unchanged. -/
def fillColCat (c : Col) : Col :=
  if c.isCat then
    match modeVal c.cells with
    | some m => { c with cells := c.cells.map (fun o => some (o.getD m)) }
    | none => c
  else c

/-- Mean imputation of one numeric column
(`df[col].fillna(df[col].mean(), inplace=True)`). Categorical columns
and columns with no observed numeric value are left unchanged. -/
def fillColNum (c : Col) : Col :=
  if c.isCat then c
  else
    match colMean c.cells with
    | some m => { c with cells := c.cells.map (fun o => some (o.getD (CellVal.num m))) }
    | none => c

/-- The Cleaner stage: drop the columns with missing fraction above the
threshold, drop `Id` (raising, i.e. `none`, when absent), then impute
the categorical columns by mode and the numeric columns by mean. -/
def clean (df : Frame) : Option Frame :=
  (dropId (dropHighMissing df)).map (List.map (fun c => fillColNum (fillColCat c)))

/-- Whether a cell is missing or numeric (i.e. not a string). -/
def numericCell (o : Option CellVal) : Bool :=
  match o with
  | some (CellVal.str _) => false
  | _ => true

/-- Dtype discipline of a real pandas frame: every observed cell of a
non-`object` column is numeric. -/
def WellFormed (df : Frame) : Prop :=
  ∀ c ∈ df, c.isCat = false → ∀ o ∈ c.cells, numericCell o = true

instance : DecidablePred WellFormed := fun df => by
  unfold WellFormed
  infer_instance

/-! ## Cleaner lemmas -/

lemma fillColCat_name (c : Col) : (fillColCat c).name = c.name := by
  unfold fillColCat
  split
  · cases hm : modeVal c.cells <;> simp
  · rfl

lemma fillColCat_isCat (c : Col) : (fillColCat c).isCat = c.isCat := by
  unfold fillColCat
  split
  · cases hm : modeVal c.cells <;> simp
  · rfl

lemma fillColNum_name (c : Col) : (fillColNum c).name = c.name := by
  unfold fillColNum
  split
  · rfl
  · cases hm : colMean c.cells <;> simp

lemma fill_name (c : Col) : (fillColNum (fillColCat c)).name = c.name := by
  rw [fillColNum_name, fillColCat_name]

lemma allNone_shouldDrop (c : Col) (hlen : 0 < c.cells.length)
    (h : ∀ o ∈ c.cells, o = none) : shouldDrop c = true := by
  have hfilter : c.cells.filter (fun o => o.isNone) = c.cells := by
    rw [List.filter_eq_self]
    intro o ho
    rw [h o ho]
    rfl
  have hfrac : missingFraction c = 1 := by
    unfold missingFraction
    rw [hfilter, div_self]
    have : (c.cells.length : Rat) ≠ 0 := by
      exact_mod_cast Nat.pos_iff_ne_zero.mp hlen
    exact this
  unfold shouldDrop threshold
  rw [hfrac]
  norm_num

lemma pickMode_ne_none (cnt : CellVal → Nat) (l : List CellVal) (h : l ≠ []) :
    pickMode cnt l ≠ none := by
  cases l with
  | nil => exact absurd rfl h
  | cons v vs =>
    cases hrec : pickMode cnt vs with
    | none => simp [pickMode, hrec]
    | some w =>
      simp only [pickMode, hrec]
      split <;> simp

lemma filterMap_id_nil {l : List (Option CellVal)} (h : l.filterMap id = []) :
    ∀ o ∈ l, o = none := by
  intro o ho
  cases o with
  | none => rfl
  | some v =>
    have hv : v ∈ l.filterMap id := List.mem_filterMap.mpr ⟨some v, ho, rfl⟩
    rw [h] at hv
    exact absurd hv (List.not_mem_nil v)

lemma modeVal_ne_none {cells : List (Option CellVal)}
    (h : cells.filterMap id ≠ []) : modeVal cells ≠ none := by
  unfold modeVal
  apply pickMode_ne_none
  rw [Ne, List.dedup_eq_nil]
  exact h

lemma filled_cat (c : Col) (hcat : c.isCat = true) (hnd : shouldDrop c = false) :
    ∀ o ∈ (fillColCat c).cells, o.isSome = true := by
  unfold fillColCat
  rw [hcat]
  simp only [if_true]
  cases hm : modeVal c.cells with
  | some m =>
    intro o ho
    rcases List.mem_map.mp ho with ⟨o0, _, rfl⟩
    rfl
  | none =>
    intro o ho
    have hvs : c.cells.filterMap id = [] := by
      by_contra hne
      exact modeVal_ne_none hne hm
    have hall : ∀ x ∈ c.cells, x = none := filterMap_id_nil hvs
    have hlen : 0 < c.cells.length := List.length_pos.mpr (List.ne_nil_of_mem ho)
    rw [allNone_shouldDrop c hlen hall] at hnd
    exact absurd hnd (by simp)

lemma filled_num (c : Col) (hcat : c.isCat = false)
    (hwf : ∀ o ∈ c.cells, numericCell o = true) (hnd : shouldDrop c = false) :
    ∀ o ∈ (fillColNum c).cells, o.isSome = true := by
  unfold fillColNum
  rw [hcat]
  simp only [Bool.false_eq_true, if_false]
  cases hm : colMean c.cells with
  | some m =>
    intro o ho
    rcases List.mem_map.mp ho with ⟨o0, _, rfl⟩
    rfl
  | none =>
    intro o ho
    have hns : numsOf c.cells = [] := by
      unfold colMean at hm
      by_contra hne
      rw [if_neg (by simpa using hne)] at hm
      exact Option.noConfusion hm
    have hall : ∀ x ∈ c.cells, x = none := by
      intro x hx
      cases x with
      | none => rfl
      | some v =>
        cases v with
        | str s =>
          have := hwf (some (CellVal.str s)) hx
          exact absurd this (by simp [numericCell])
        | num q =>
          have hq : q ∈ numsOf c.cells :=
            List.mem_filterMap.mpr ⟨some (CellVal.num q), hx, rfl⟩
          rw [hns] at hq
          exact absurd hq (List.not_mem_nil q)
    have hlen : 0 < c.cells.length := List.length_pos.mpr (List.ne_nil_of_mem ho)
    rw [allNone_shouldDrop c hlen hall] at hnd
    exact absurd hnd (by simp)

lemma clean_eq (df : Frame) (out : Frame) (h : clean df = some out) :
    "Id" ∈ namesOf (dropHighMissing df) ∧
      out = ((dropHighMissing df).filter (fun c => c.name ≠ "Id")).map
        (fun c => fillColNum (fillColCat c)) := by
  unfold clean dropId at h
  split at h
  · next hmem =>
    refine ⟨hmem, ?_⟩
    simp only [Option.map_some'] at h
    exact (Option.some.injEq _ _).mp h.symm |>.symm ▸ (by
      cases h
      rfl)
  · exact Option.noConfusion h

lemma clean_names (df : Frame) (out : Frame) (h : clean df = some out) :
    namesOf out = namesOf ((dropHighMissing df).filter (fun c => c.name ≠ "Id")) := by
  obtain ⟨-, rfl⟩ := clean_eq df out h
  unfold namesOf
  rw [List.map_map]
  exact List.map_congr_left (fun c _ => fill_name c)

lemma dropped_not_mem (df out : Frame) (h : clean df = some out)
    (hnodup : (namesOf df).Nodup) (c : Col) (hc : c ∈ df)
    (hdrop : shouldDrop c = true) : c.name ∉ namesOf out := by
  intro hmem
  rw [clean_names df out h] at hmem
  rcases List.mem_map.mp hmem with ⟨c', hc', hname⟩
  have h1 := List.mem_filter.mp hc'
  have h2 : c' ∈ df ∧ shouldDrop c' = false := by
    simpa [dropHighMissing] using h1.1
  have hc'df : c' ∈ df := h2.1
  have hkeep : shouldDrop c' = false := h2.2
  have : c' = c := List.inj_on_of_nodup_map hnodup hc'df hc hname
  rw [this, hdrop] at hkeep
  exact Bool.noConfusion hkeep

/-! ## C1 and C2: behaviour of the Cleaner -/

/-- C1: after the Cleaner runs on any (well-formed) raw frame, the
resulting cleaned frame contains zero missing cells: every cell of
every remaining column is non-null. -/
theorem c1_clean_no_missing (df : Frame) (hwf : WellFormed df) (out : Frame)
    (hout : clean df = some out) :
    ∀ c ∈ out, ∀ o ∈ c.cells, o.isSome = true := by
  obtain ⟨-, hout⟩ := clean_eq df out hout
  subst hout
  intro c hc o ho
  rcases List.mem_map.mp hc with ⟨c0, hc0, rfl⟩
  have hc0' := List.mem_filter.mp hc0
  have hc0'' : c0 ∈ df ∧ shouldDrop c0 = false := by
    simpa [dropHighMissing] using hc0'.1
  have hmemdf : c0 ∈ df := hc0''.1
  have hnd : shouldDrop c0 = false := hc0''.2
  cases hcat : c0.isCat with
  | true =>
    have hid : fillColNum (fillColCat c0) = fillColCat c0 := by
      unfold fillColNum
      rw [fillColCat_isCat, hcat]
      simp
    rw [hid] at ho
    exact filled_cat c0 hcat hnd o ho
  | false =>
    have hidc : fillColCat c0 = c0 := by
      unfold fillColCat
      rw [hcat]
      simp
    rw [hidc] at ho
    exact filled_num c0 hcat (fun o ho => hwf c0 hmemdf hcat o ho) hnd o ho

/-- A concrete raw frame: an `Id` column, a categorical column `A` with
one missing cell, a numeric column `B` with one missing cell. -/
def exFrame1 : Frame :=
  [ { name := "Id", isCat := false,
      cells := [some (CellVal.num 1), some (CellVal.num 2), some (CellVal.num 3), some (CellVal.num 4)] },
    { name := "A", isCat := true,
      cells := [some (CellVal.str "b"), none, some (CellVal.str "b"), some (CellVal.str "a")] },
    { name := "B", isCat := false,
      cells := [some (CellVal.num 1), none, some (CellVal.num 2), some (CellVal.num 3)] } ]

/-- The cleaned version of `exFrame1`: `Id` dropped, `A` mode-imputed
with `"b"`, `B` mean-imputed with `2`. -/
def exFrame1Clean : Frame :=
  [ { name := "A", isCat := true,
      cells := [some (CellVal.str "b"), some (CellVal.str "b"), some (CellVal.str "b"), some (CellVal.str "a")] },
    { name := "B", isCat := false,
      cells := [some (CellVal.num 1), some (CellVal.num 2), some (CellVal.num 2), some (CellVal.num 3)] } ]

/-- Witness for C1 at the concrete frame `exFrame1`. -/
theorem c1_clean_no_missing_witness :
    WellFormed exFrame1 ∧ clean exFrame1 = some exFrame1Clean ∧
      ∀ c ∈ exFrame1Clean, ∀ o ∈ c.cells, o.isSome = true :=
  ⟨by decide, by decide,
    c1_clean_no_missing exFrame1 (by decide) exFrame1Clean (by decide)⟩

/-- C2: the cleaned frame contains no column whose missing fraction
exceeds 0.3, never contains `Id`, and retains every column with
missing fraction at most 0.3 other than `Id`. -/
theorem c2_drop_policy (df : Frame) (out : Frame) (hout : clean df = some out) :
    "Id" ∉ namesOf out ∧
      (∀ c ∈ df, shouldDrop c = true → (namesOf df).Nodup → c.name ∉ namesOf out) ∧
      (∀ c ∈ df, shouldDrop c = false → c.name ≠ "Id" → c.name ∈ namesOf out) := by
  have hn := clean_names df out hout
  refine ⟨?_, ?_, ?_⟩
  · rw [hn]
    intro hmem
    rcases List.mem_map.mp hmem with ⟨c, hc, hname⟩
    have hne : c.name ≠ "Id" := by simpa using (List.mem_filter.mp hc).2
    exact hne hname
  · intro c hc hdrop hnodup
    exact dropped_not_mem df out hout hnodup c hc hdrop
  · intro c hc hkeep hname
    rw [hn]
    apply List.mem_map.mpr
    refine ⟨c, List.mem_filter.mpr ⟨?_, by simpa using hname⟩, rfl⟩
    unfold dropHighMissing
    exact List.mem_filter.mpr ⟨hc, by simp [hkeep]⟩

/-- A concrete raw frame for C2: `Id`, a column `X` with every cell
missing (fraction 1 > 0.3), and a fully-observed numeric column `Y`. -/
def exFrame2 : Frame :=
  [ { name := "Id", isCat := false, cells := [some (CellVal.num 1), some (CellVal.num 2)] },
    { name := "X", isCat := true, cells := [none, none] },
    { name := "Y", isCat := false, cells := [some (CellVal.num 5), some (CellVal.num 6)] } ]

/-- The cleaned version of `exFrame2`: only `Y` survives. -/
def exFrame2Clean : Frame :=
  [ { name := "Y", isCat := false, cells := [some (CellVal.num 5), some (CellVal.num 6)] } ]

/-- Witness for C2 at the concrete frame `exFrame2`. -/
theorem c2_drop_policy_witness :
    clean exFrame2 = some exFrame2Clean ∧
      ("Id" ∉ namesOf exFrame2Clean ∧
        (∀ c ∈ exFrame2, shouldDrop c = true → (namesOf exFrame2).Nodup →
          c.name ∉ namesOf exFrame2Clean) ∧
        (∀ c ∈ exFrame2, shouldDrop c = false → c.name ≠ "Id" →
          c.name ∈ namesOf exFrame2Clean)) :=
  ⟨by decide, c2_drop_policy exFrame2 exFrame2Clean (by decide)⟩

/-! ## C4: wholly-null columns -/

/-- A raw frame containing a wholly-null column `W`. -/
def exFrame4 : Frame :=
  [ { name := "Id", isCat := false, cells := [some (CellVal.num 1), some (CellVal.num 2)] },
    { name := "W", isCat := true, cells := [none, none] },
    { name := "Y", isCat := false, cells := [some (CellVal.num 5), some (CellVal.num 6)] } ]

/-- The wholly-null column of `exFrame4`. -/
def exColW : Col := { name := "W", isCat := true, cells := [none, none] }

/-- C4 counterexample: on a frame containing a wholly-null column the
run does NOT raise: the Cleaner succeeds (the column is simply dropped
by the threshold rule), refuting the claim that an exception
propagates and the run terminates. -/
theorem c4_counterexample :
    exColW ∈ exFrame4 ∧ 0 < exColW.cells.length ∧
      exColW.cells.all (fun o => o.isNone) = true ∧
      (clean exFrame4).isSome = true := by
  decide

/-- C4 amended: a wholly-null column (with at least one row) has
missing fraction 1 > 0.3, so it is dropped by the threshold rule and
the run completes without an exception; the cleaned frame does not
contain the column. -/
theorem c4_wholly_null_dropped (df : Frame) (c : Col) (hc : c ∈ df)
    (hlen : 0 < c.cells.length) (hall : ∀ o ∈ c.cells, o = none) :
    shouldDrop c = true ∧
      ∀ out, clean df = some out → (namesOf df).Nodup → c.name ∉ namesOf out := by
  have hdrop := allNone_shouldDrop c hlen hall
  exact ⟨hdrop, fun out hout hnodup => dropped_not_mem df out hout hnodup c hc hdrop⟩

/-- Witness for the amended C4 at the concrete frame `exFrame4`. -/
theorem c4_wholly_null_dropped_witness :
    shouldDrop exColW = true ∧
      ∀ out, clean exFrame4 = some out → (namesOf exFrame4).Nodup →
        exColW.name ∉ namesOf out :=
  c4_wholly_null_dropped exFrame4 exColW (by decide) (by decide) (by decide)

/-! ## Encoder -/

/-- The hand-curated list of ordered-categorical columns of the
notebook (`ord_enc_cols`). -/
def ord_enc_cols : List String :=
  ["LotShape", "ExterQual", "ExterCond", "BsmtQual", "BsmtCond", "BsmtExposure",
   "BsmtFinType1", "BsmtFinType2", "HeatingQC", "KitchenQual",
   "GarageQual", "GarageCond"]

/-- The hand-curated list of unordered-categorical columns of the
notebook (`one_hot_enc_cols`). -/
def one_hot_enc_cols : List String :=
  ["MSZoning", "Street", "LandContour", "Utilities",
   "LotConfig", "LandSlope", "Neighborhood", "Condition1", "Condition2",
   "BldgType", "HouseStyle", "RoofStyle", "RoofMatl", "Exterior1st",
   "Exterior2nd", "Foundation", "Heating", "Electrical", "Functional", "GarageType",
   "GarageFinish", "PavedDrive", "SaleType", "SaleCondition"]

/-- The hand-curated list of binary columns of the notebook
(`bin_enc_cols`). -/
def bin_enc_cols : List String := ["CentralAir"]

/-- Insertion into a `valLE`-sorted list. -/
def insertVal (v : CellVal) : List CellVal → List CellVal
  | [] => [v]
  | w :: ws => if valLE v w then v :: w :: ws else w :: insertVal v ws

/-- Insertion sort by `valLE`, modelling `numpy.unique`'s sorted output. -/
def sortVals : List CellVal → List CellVal
  | [] => []
  | v :: vs => insertVal v (sortVals vs)

/-- The sorted distinct observed values of a column: the categories
that `OrdinalEncoder` / `LabelEncoder` / `pd.get_dummies` fit on it. -/
def categoriesOf (c : Col) : List CellVal :=
  sortVals (c.cells.filterMap id).dedup

/-- `OrdinalEncoder().fit_transform(df[[col]])` (also
`LabelEncoder().fit_transform(df[col])`, which encodes identically):
each observed value is replaced by the index of its category in the
sorted category list; a missing cell stays missing; the resulting
dtype is numeric. -/
def ordEncodeCol (c : Col) : Col :=
  { c with
    isCat := false
    cells := c.cells.map (fun o =>
      o.map (fun v => CellVal.num (((categoriesOf c).indexOf v : Nat) : Rat))) }

/-- `for col in cols: df[col] = enc.fit_transform(df[[col]])`: encodes
every listed column in place; pandas raises `KeyError` (modelled by
`none`) when a listed column is absent. -/
def encodeListed (cols : List String) (enc : Col → Col) (df : Frame) : Option Frame :=
  if cols.all (fun n => decide (n ∈ namesOf df)) then
    some (df.map (fun c => if c.name ∈ cols then enc c else c))
  else none

/-- The string pandas uses for a category in a dummy-column name. -/
def showVal : CellVal → String
  | CellVal.str s => s
  | CellVal.num q => toString q

/-- The indicator columns `pd.get_dummies` generates for one original
column: one numeric 0/1 column per distinct observed category, named
`col_category`; a missing cell yields 0 in every indicator. -/
def oneHotCols (c : Col) : List Col :=
  (categoriesOf c).map (fun v =>
    { name := c.name ++ "_" ++ showVal v
      isCat := false
      cells := c.cells.map (fun o => some (CellVal.num (if o = some v then 1 else 0))) })

/-- `pd.get_dummies(df, columns=one_hot_enc_cols)`: the listed columns
are removed and their indicator columns appended at the end, in list
order; `KeyError` (modelled by `none`) if a listed column is absent. -/
def getDummiesFrame (df : Frame) : Option Frame :=
  if one_hot_enc_cols.all (fun n => decide (n ∈ namesOf df)) then
    some ((df.filter (fun c => c.name ∉ one_hot_enc_cols)) ++
      (one_hot_enc_cols.flatMap (fun n => df.filter (fun c => c.name = n))).flatMap oneHotCols)
  else none

/-- Truncation toward zero: the semantics of numpy's float→int cast
used by `df.astype(int)`. -/
def truncQ (q : Rat) : Int := if 0 ≤ q then q.floor else -((-q).floor)

/-- The cast of one cell by `astype(int)`: a numeric cell is truncated
toward zero; a missing or string cell raises (`none`). -/
def cellToInt : Option CellVal → Option (Option CellVal)
  | some (CellVal.num q) => some (some (CellVal.num ((truncQ q : Int) : Rat)))
  | _ => none

/-- `astype(int)` applied to the cell list of one column. -/
def cellsToInt : List (Option CellVal) → Option (List (Option CellVal))
  | [] => some []
  | o :: os =>
    match cellToInt o, cellsToInt os with
    | some x, some xs => some (x :: xs)
    | _, _ => none

/-- `df.astype(int)`: every cell of every column cast to integer,
raising (`none`) as soon as any cell cannot be cast. -/
def astypeIntFrame : Frame → Option Frame
  | [] => some []
  | c :: cs =>
    match cellsToInt c.cells, astypeIntFrame cs with
    | some cl, some rest => some ({ c with isCat := false, cells := cl } :: rest)
    | _, _ => none

/-- The Encoder stage, in notebook order: ordinal encoding of the
ordered columns, one-hot expansion of the unordered columns, label
encoding of the binary columns, then cast of every column to int. -/
def encodeFrame (df : Frame) : Option Frame :=
  (encodeListed ord_enc_cols ordEncodeCol df).bind (fun d1 =>
    (getDummiesFrame d1).bind (fun d2 =>
      (encodeListed bin_enc_cols ordEncodeCol d2).bind astypeIntFrame))

/-! ## C3: one-hot indicator columns -/

lemma insertVal_perm (v : CellVal) (l : List CellVal) :
    (insertVal v l).Perm (v :: l) := by
  induction l with
  | nil => exact List.Perm.refl _
  | cons w ws ih =>
    unfold insertVal
    split
    · exact List.Perm.refl _
    · exact (List.Perm.cons w ih).trans (List.Perm.swap v w ws)

lemma sortVals_perm (l : List CellVal) : (sortVals l).Perm l := by
  induction l with
  | nil => exact List.Perm.refl _
  | cons v vs ih =>
    exact (insertVal_perm v (sortVals vs)).trans (List.Perm.cons v ih)

lemma categoriesOf_nodup (c : Col) : (categoriesOf c).Nodup :=
  (sortVals_perm _).nodup_iff.mpr (List.nodup_dedup _)

lemma mem_categoriesOf {c : Col} {v : CellVal} :
    v ∈ categoriesOf c ↔ v ∈ c.cells.filterMap id :=
  (sortVals_perm _).mem_iff.trans List.mem_dedup

lemma sum_indicator_not_mem (v : CellVal) (l : List CellVal) (hm : v ∉ l) :
    (l.map (fun w => if v = w then (1 : Rat) else 0)).sum = 0 := by
  induction l with
  | nil => rfl
  | cons w ws ih =>
    have hvw : ¬ v = w := fun h => hm (by rw [h]; exact List.mem_cons_self w ws)
    have hmem : v ∉ ws := fun h => hm (List.mem_cons_of_mem w h)
    simp only [List.map_cons, List.sum_cons]
    rw [if_neg hvw, ih hmem]
    norm_num

lemma sum_indicator_mem (v : CellVal) (l : List CellVal) (hn : l.Nodup)
    (hm : v ∈ l) :
    (l.map (fun w => if v = w then (1 : Rat) else 0)).sum = 1 := by
  induction l with
  | nil => cases hm
  | cons w ws ih =>
    simp only [List.map_cons, List.sum_cons]
    rcases List.mem_cons.mp hm with rfl | hmem
    · rw [if_pos rfl, sum_indicator_not_mem v ws (List.nodup_cons.mp hn).1]
      norm_num
    · have hvw : v ≠ w := fun h => (List.nodup_cons.mp hn).1 (h ▸ hmem)
      rw [if_neg hvw, ih (List.nodup_cons.mp hn).2 hmem]
      norm_num

/-- The numeric content of a cell (0 for missing, as in a dummy row). -/
def cellNumVal : Option CellVal → Rat
  | some (CellVal.num q) => q
  | _ => 0

/-- The sum, at row `i`, across the indicator columns that
`pd.get_dummies` generates for the original column `c`. -/
def dummyRowSum (c : Col) (i : Nat) : Rat :=
  ((oneHotCols c).map (fun d => cellNumVal (d.cells.getD i none))).sum

/-- C3: in the encoded frame, for every unordered-categorical column
that is one-hot expanded and every row whose original cell is non-null
(guaranteed after cleaning), the sum of the generated indicator
columns at that row is exactly 1. -/
theorem c3_one_hot_row_sum (df : Frame) (c : Col) (hc : c ∈ df)
    (hcol : c.name ∈ one_hot_enc_cols) (i : Nat) (v : CellVal)
    (hcell : c.cells[i]? = some (some v)) : dummyRowSum c i = 1 := by
  unfold dummyRowSum oneHotCols
  rw [List.map_map]
  have hpt : ∀ w ∈ categoriesOf c,
      ((fun d => cellNumVal (d.cells.getD i none)) ∘ (fun w =>
        ({ name := c.name ++ "_" ++ showVal w
           isCat := false
           cells := c.cells.map (fun o =>
             some (CellVal.num (if o = some w then 1 else 0))) } : Col))) w
        = if v = w then (1 : Rat) else 0 := by
    intro w _
    simp only [Function.comp]
    rw [List.getD_eq_getElem?_getD, List.getElem?_map, hcell]
    simp [cellNumVal]
  rw [List.map_congr_left hpt]
  exact sum_indicator_mem v _ (categoriesOf_nodup c)
    (mem_categoriesOf.mpr (List.mem_filterMap.mpr ⟨some v, List.getElem?_mem hcell, rfl⟩))

/-- A concrete frame whose `Street` column is one-hot expanded. -/
def exFrame3 : Frame :=
  [ { name := "Street", isCat := true,
      cells := [some (CellVal.str "Pave"), some (CellVal.str "Grvl"), some (CellVal.str "Pave")] } ]

/-- The `Street` column of `exFrame3`. -/
def exColStreet : Col :=
  { name := "Street", isCat := true,
    cells := [some (CellVal.str "Pave"), some (CellVal.str "Grvl"), some (CellVal.str "Pave")] }

/-- Witness for C3 at row 0 of the concrete `Street` column. -/
theorem c3_one_hot_row_sum_witness :
    exColStreet ∈ exFrame3 ∧ "Street" ∈ one_hot_enc_cols ∧
      exColStreet.cells[0]? = some (some (CellVal.str "Pave")) ∧
      dummyRowSum exColStreet 0 = 1 :=
  ⟨by decide, by decide, by decide,
    c3_one_hot_row_sum exFrame3 exColStreet (by decide) (by decide) 0
      (CellVal.str "Pave") (by decide)⟩

/-! ## C7: the final cast to integer -/

lemma truncQ_eq (q : Rat) : truncQ q = if 0 ≤ q then ⌊q⌋ else ⌈q⌉ := by
  unfold truncQ
  split
  · rfl
  · show -((-q).floor) = ⌈q⌉
    have hfl : ((-q).floor) = ⌊-q⌋ := rfl
    rw [hfl, Int.floor_neg, neg_neg]

lemma truncQ_nonneg_bounds (q : Rat) (h : 0 ≤ q) :
    ((truncQ q : Int) : Rat) ≤ q ∧ q - 1 < ((truncQ q : Int) : Rat) := by
  rw [truncQ_eq, if_pos h]
  exact ⟨Int.floor_le q, by linarith [Int.lt_floor_add_one q]⟩

lemma truncQ_nonpos_bounds (q : Rat) (h : q ≤ 0) :
    q ≤ ((truncQ q : Int) : Rat) ∧ ((truncQ q : Int) : Rat) < q + 1 := by
  rw [truncQ_eq]
  by_cases h0 : (0 : Rat) ≤ q
  · rw [if_pos h0]
    have hq : q = 0 := le_antisymm h h0
    subst hq
    rw [Int.floor_zero]
    norm_num
  · rw [if_neg h0]
    exact ⟨Int.le_ceil q, Int.ceil_lt_add_one q⟩

lemma cellsToInt_int {os : List (Option CellVal)} {xs : List (Option CellVal)}
    (h : cellsToInt os = some xs) :
    ∀ x ∈ xs, ∃ z : Int, x = some (CellVal.num (z : Rat)) := by
  induction os generalizing xs with
  | nil =>
    obtain rfl : ([] : List (Option CellVal)) = xs := Option.some.inj h
    exact fun x hx => absurd hx (List.not_mem_nil x)
  | cons o os' ih =>
    unfold cellsToInt at h
    split at h
    · next x0 xs0 hx0 hxs0 =>
      obtain rfl := Option.some.inj h
      intro x hx
      rcases List.mem_cons.mp hx with rfl | hmem
      · unfold cellToInt at hx0
        split at hx0
        · next q => exact ⟨truncQ q, (Option.some.inj hx0).symm⟩
        · exact Option.noConfusion hx0
      · exact ih hxs0 x hmem
    · exact Option.noConfusion h

lemma astypeIntFrame_spec {df out : Frame} (h : astypeIntFrame df = some out) :
    namesOf out = namesOf df ∧
      ∀ c ∈ out, ∃ c0, c0 ∈ df ∧ cellsToInt c0.cells = some c.cells := by
  induction df generalizing out with
  | nil =>
    obtain rfl : ([] : Frame) = out := Option.some.inj h
    exact ⟨rfl, fun c hc => absurd hc (List.not_mem_nil c)⟩
  | cons c cs ih =>
    unfold astypeIntFrame at h
    split at h
    · next cl rest hc hr =>
      obtain rfl := Option.some.inj h
      obtain ⟨ihn, ihm⟩ := ih hr
      constructor
      · simpa [namesOf] using ihn
      · intro d hd
        rcases List.mem_cons.mp hd with rfl | hmem
        · exact ⟨c, List.mem_cons_self _ _, by simpa using hc⟩
        · rcases ihm d hmem with ⟨c0, hc0, hcc⟩
          exact ⟨c0, List.mem_cons_of_mem _ hc0, hcc⟩
    · exact Option.noConfusion h

/-- C7: `df.astype(int)` casts every cell to an integer; the cast
truncates toward zero (the value moves toward 0 by strictly less than
1), so every cell of the resulting encoded frame is an integer. -/
theorem c7_astype_int (df : Frame) (out : Frame)
    (hout : astypeIntFrame df = some out) :
    (∀ c ∈ out, ∀ o ∈ c.cells, ∃ z : Int, o = some (CellVal.num (z : Rat))) ∧
      (∀ q : Rat, cellToInt (some (CellVal.num q)) =
        some (some (CellVal.num ((truncQ q : Int) : Rat)))) ∧
      (∀ q : Rat, 0 ≤ q →
        ((truncQ q : Int) : Rat) ≤ q ∧ q - 1 < ((truncQ q : Int) : Rat)) ∧
      (∀ q : Rat, q ≤ 0 →
        q ≤ ((truncQ q : Int) : Rat) ∧ ((truncQ q : Int) : Rat) < q + 1) := by
  refine ⟨?_, fun q => rfl, truncQ_nonneg_bounds, truncQ_nonpos_bounds⟩
  intro c hc o ho
  rcases (astypeIntFrame_spec hout).2 c hc with ⟨c0, -, hcc⟩
  exact cellsToInt_int hcc o ho

/-- A concrete numeric frame with fractional cells. -/
def exFrame7 : Frame :=
  [ { name := "F", isCat := false,
      cells := [some (CellVal.num (5/2)), some (CellVal.num (-7/2))] } ]

/-- `exFrame7` after `astype(int)`: 2.5 truncates to 2, −3.5 to −3. -/
def exFrame7Int : Frame :=
  [ { name := "F", isCat := false,
      cells := [some (CellVal.num 2), some (CellVal.num (-3))] } ]

/-- Witness for C7 at the concrete frame `exFrame7`. -/
theorem c7_astype_int_witness :
    astypeIntFrame exFrame7 = some exFrame7Int ∧
      (∀ c ∈ exFrame7Int, ∀ o ∈ c.cells, ∃ z : Int, o = some (CellVal.num (z : Rat))) :=
  ⟨by decide, (c7_astype_int exFrame7 exFrame7Int (by decide)).1⟩

/-! ## Feature Selector -/

/-- `df_encoded.drop('SalePrice', axis=1).columns`: the feature matrix
the random forest is fit on excludes the target column. -/
def featureNames (dfe : Frame) : List String :=
  (namesOf dfe).filter (fun n => n ≠ "SalePrice")

/-- `feature_importance[feature_importance > 0.001].index`: the
features whose fitted importance strictly exceeds the threshold
0.001 (`imp` is the importance series of the fitted forest). -/
def selectedFeatures (imp : String → Rat) (dfe : Frame) : List String :=
  (featureNames dfe).filter (fun n => decide (imp n > 1/1000))

/-- `df_final = pd.concat([df_encoded[selected_features],
df_encoded[['SalePrice']]], axis=1)`. -/
def selectStep (imp : String → Rat) (dfe : Frame) : Frame :=
  (dfe.filter (fun c => decide (c.name ∈ selectedFeatures imp dfe))) ++
    (dfe.filter (fun c => decide (c.name = "SalePrice")))

/-- The feature-selection output: a
`RandomForestRegressor(random_state=seed)` is fit on the encoded frame
and its importances are thresholded. `rfImp` maps the seed and the
frame to the fitted importances, so fixing the seed (the notebook uses
`random_state=1`) makes the importances a function of the frame alone. -/
def featureSelect (rfImp : Nat → Frame → String → Rat) (seed : Nat)
    (dfe : Frame) : List String :=
  selectedFeatures (rfImp seed dfe) dfe

/-- C6: with the fixed seed 1 and fixed threshold 0.001, feature
selection is deterministic — two runs on the same encoded frame yield
the same selected column set — and the selected set contains exactly
the features whose importance strictly exceeds 0.001. -/
theorem c6_selection_deterministic (rfImp : Nat → Frame → String → Rat)
    (dfe dfe2 : Frame) (h : dfe2 = dfe) :
    featureSelect rfImp 1 dfe2 = featureSelect rfImp 1 dfe ∧
      ∀ n, n ∈ featureSelect rfImp 1 dfe ↔
        (n ∈ featureNames dfe ∧ rfImp 1 dfe n > 1/1000) := by
  subst h
  refine ⟨rfl, fun n => ?_⟩
  unfold featureSelect selectedFeatures
  rw [List.mem_filter]
  simp

/-- A concrete importance series: only `A` matters. -/
def exImp : Nat → Frame → String → Rat := fun _ _ n => if n = "A" then 1 else 0

/-- Witness for C6 at the concrete cleaned frame `exFrame1Clean`. -/
theorem c6_selection_deterministic_witness :
    featureSelect exImp 1 exFrame1Clean = featureSelect exImp 1 exFrame1Clean ∧
      ∀ n, n ∈ featureSelect exImp 1 exFrame1Clean ↔
        (n ∈ featureNames exFrame1Clean ∧ exImp 1 exFrame1Clean n > 1/1000) :=
  c6_selection_deterministic exImp exFrame1Clean exFrame1Clean rfl

/-! ## Pipeline dataflow -/

/-- `df_dropped`: the cleaned frame of the notebook (cells 18–24),
which is also the frame CatBoost training starts from. -/
def df_dropped (df : Frame) : Option Frame := clean df

/-- `df_encoded`: the fully encoded frame (cells 49–55). -/
def df_encoded (df : Frame) : Option Frame := (clean df).bind encodeFrame

/-- `df_final`: the feature-selected frame (cells 59–61). -/
def df_final (rfImp : Nat → Frame → String → Rat) (df : Frame) : Option Frame :=
  (df_encoded df).map (fun dfe => selectStep (rfImp 1 dfe) dfe)

/-- The frame passed to `split_dataset` for LogisticRegression. -/
def trainFrameLR (rfImp : Nat → Frame → String → Rat) (df : Frame) : Option Frame :=
  df_final rfImp df

/-- The frame passed to `split_dataset` for RandomForestRegressor. -/
def trainFrameRF (rfImp : Nat → Frame → String → Rat) (df : Frame) : Option Frame :=
  df_final rfImp df

/-- The frame passed to `split_dataset` for XGBRegressor. -/
def trainFrameXGB (rfImp : Nat → Frame → String → Rat) (df : Frame) : Option Frame :=
  df_final rfImp df

/-- The frame passed to `split_dataset` for CatBoost:
`split_dataset(df_dropped, "SalePrice")` — the cleaned frame, not the
feature-selected one. -/
def trainFrameCat (df : Frame) : Option Frame := df_dropped df

/-! ## C5: which frame each trainer consumes -/

lemma selectStep_names_subset (imp : String → Rat) (dfe : Frame) :
    ∀ n ∈ namesOf (selectStep imp dfe), n ∈ namesOf dfe := by
  intro n hn
  unfold selectStep at hn
  unfold namesOf at hn ⊢
  rw [List.map_append, List.mem_append] at hn
  rcases hn with h | h <;>
    · rcases List.mem_map.mp h with ⟨c, hc, rfl⟩
      exact List.mem_map.mpr ⟨c, (List.mem_filter.mp hc).1, rfl⟩

/-- A two-row categorical column used to build a full synthetic frame. -/
def mkCatCol (n : String) : Col :=
  { name := n, isCat := true, cells := [some (CellVal.str "a"), some (CellVal.str "b")] }

/-- A synthetic raw frame carrying `Id`, `SalePrice` and every column
the hand-curated encoder lists mention, so the whole pipeline runs. -/
def exRawFull : Frame :=
  { name := "Id", isCat := false, cells := [some (CellVal.num 1), some (CellVal.num 2)] } ::
  { name := "SalePrice", isCat := false, cells := [some (CellVal.num 100), some (CellVal.num 200)] } ::
  (ord_enc_cols ++ one_hot_enc_cols ++ bin_enc_cols).map mkCatCol

/-- An importance series that keeps every feature. -/
def exImpAll : Nat → Frame → String → Rat := fun _ _ _ => 1

/-- C5 counterexample: the frame CatBoost training consumes (a split
of `df_dropped`, the cleaned frame) is NOT the feature-selected frame
the other three regressors consume — refuting the claim that every one
of the four regressors is fit on a split of the feature-selected
frame. -/
theorem c5_counterexample :
    trainFrameCat exRawFull ≠ trainFrameXGB exImpAll exRawFull := by
  decide

/-- C5 amended: LogisticRegression, RandomForest and XGBoost are each
fit on (a split of) the feature-selected frame, which is produced from
the encoded frame, itself produced from the cleaned frame — the
sequential chaining holds there, and every column of the final frame
comes from the encoded frame; CatBoost, however, is fit on (a split
of) the cleaned frame `df_dropped`, skipping the Encoder and the
Feature Selector. -/
theorem c5_stage_dataflow (rfImp : Nat → Frame → String → Rat) (df : Frame) :
    trainFrameLR rfImp df = df_final rfImp df ∧
      trainFrameRF rfImp df = df_final rfImp df ∧
      trainFrameXGB rfImp df = df_final rfImp df ∧
      df_final rfImp df = (df_encoded df).map (fun dfe => selectStep (rfImp 1 dfe) dfe) ∧
      df_encoded df = (clean df).bind encodeFrame ∧
      trainFrameCat df = clean df ∧
      (∀ dfe dff, df_encoded df = some dfe → df_final rfImp df = some dff →
        ∀ n ∈ namesOf dff, n ∈ namesOf dfe) := by
  refine ⟨rfl, rfl, rfl, rfl, rfl, rfl, ?_⟩
  intro dfe dff henc hfin n hn
  unfold df_final at hfin
  rw [henc] at hfin
  obtain rfl := Option.some.inj (by simpa using hfin)
  exact selectStep_names_subset _ dfe n hn

/-- Witness for the amended C5 at the concrete frame `exRawFull`. -/
theorem c5_stage_dataflow_witness :
    trainFrameCat exRawFull = clean exRawFull :=
  (c5_stage_dataflow exImpAll exRawFull).2.2.2.2.2.1

/-! ## C10: preservation of the target column -/

lemma ordEncodeCol_name (c : Col) : (ordEncodeCol c).name = c.name := rfl

lemma encodeListed_names {cols : List String} {enc : Col → Col} {df out : Frame}
    (h : encodeListed cols enc df = some out)
    (henc : ∀ c, (enc c).name = c.name) : namesOf out = namesOf df := by
  unfold encodeListed at h
  split at h
  · obtain rfl := Option.some.inj h
    unfold namesOf
    rw [List.map_map]
    apply List.map_congr_left
    intro c _
    by_cases hm : c.name ∈ cols
    · simp only [Function.comp]
      rw [if_pos hm, henc]
    · simp only [Function.comp]
      rw [if_neg hm]
  · exact Option.noConfusion h

lemma getDummiesFrame_eq {df out : Frame} (h : getDummiesFrame df = some out) :
    out = (df.filter (fun c => c.name ∉ one_hot_enc_cols)) ++
      (one_hot_enc_cols.flatMap (fun n => df.filter (fun c => c.name = n))).flatMap oneHotCols := by
  unfold getDummiesFrame at h
  split at h
  · exact (Option.some.inj h).symm
  · exact Option.noConfusion h

lemma dummy_name_ne_salePrice (c : Col) (d : Col) (hd : d ∈ oneHotCols c) :
    d.name ≠ "SalePrice" := by
  rcases List.mem_map.mp hd with ⟨v, -, rfl⟩
  intro heq
  have heq' : c.name ++ "_" ++ showVal v = "SalePrice" := heq
  have hu : '_' ∈ (c.name ++ "_" ++ showVal v).data := by
    rw [String.data_append, String.data_append]
    exact List.mem_append.mpr (Or.inl (List.mem_append.mpr (Or.inr (by decide))))
  rw [heq'] at hu
  exact absurd hu (by decide)

lemma count_names_filter (df : Frame) (p : Col → Bool) (a : String)
    (h : ∀ c : Col, c.name = a → p c = true) :
    ((df.filter p).map Col.name).count a = (df.map Col.name).count a := by
  induction df with
  | nil => rfl
  | cons c cs ih =>
    by_cases hp : p c = true
    · rw [List.filter_cons, if_pos hp]
      simp only [List.map_cons]
      rw [List.count_cons, List.count_cons, ih]
    · have hne : c.name ≠ a := fun he => hp (h c he)
      rw [List.filter_cons, if_neg hp]
      simp only [List.map_cons]
      rw [List.count_cons_of_ne (Ne.symm hne), ih]

lemma getDummies_salePrice_count {df out : Frame}
    (h : getDummiesFrame df = some out) :
    (namesOf out).count "SalePrice" = (namesOf df).count "SalePrice" := by
  obtain rfl := getDummiesFrame_eq h
  unfold namesOf
  rw [List.map_append, List.count_append]
  have h2 : (((one_hot_enc_cols.flatMap (fun n =>
      df.filter (fun c => c.name = n))).flatMap oneHotCols).map Col.name).count
        "SalePrice" = 0 := by
    rw [List.count_eq_zero]
    intro hmem
    rcases List.mem_map.mp hmem with ⟨d, hd, hdn⟩
    rcases List.mem_flatMap.mp hd with ⟨c, -, hdc⟩
    exact dummy_name_ne_salePrice c d hdc hdn
  rw [h2, Nat.add_zero]
  exact count_names_filter df _ "SalePrice" (fun c hc => by rw [hc]; decide)

lemma encodeFrame_salePrice_count {df out : Frame} (h : encodeFrame df = some out) :
    (namesOf out).count "SalePrice" = (namesOf df).count "SalePrice" := by
  unfold encodeFrame at h
  rcases Option.bind_eq_some.mp h with ⟨d1, h1, hrest⟩
  rcases Option.bind_eq_some.mp hrest with ⟨d2, h2, hrest2⟩
  rcases Option.bind_eq_some.mp hrest2 with ⟨d3, h3, h4⟩
  have e1 : namesOf d1 = namesOf df := encodeListed_names h1 (fun c => rfl)
  have e2 := getDummies_salePrice_count h2
  have e3 : namesOf d3 = namesOf d2 := encodeListed_names h3 (fun c => rfl)
  have e4 : namesOf out = namesOf d3 := (astypeIntFrame_spec h4).1
  rw [e4, e3, e2, e1]

lemma salePrice_not_featureNames (dfe : Frame) : "SalePrice" ∉ featureNames dfe := by
  intro h
  have := (List.mem_filter.mp h).2
  simp at this

lemma salePrice_not_selected (imp : String → Rat) (dfe : Frame) :
    "SalePrice" ∉ selectedFeatures imp dfe := fun h =>
  salePrice_not_featureNames dfe (List.mem_filter.mp h).1

lemma selectStep_salePrice_count (imp : String → Rat) (dfe : Frame) :
    (namesOf (selectStep imp dfe)).count "SalePrice" =
      (namesOf dfe).count "SalePrice" := by
  unfold selectStep
  unfold namesOf
  rw [List.map_append, List.count_append]
  have h1 : ((dfe.filter (fun c =>
      decide (c.name ∈ selectedFeatures imp dfe))).map Col.name).count
        "SalePrice" = 0 := by
    rw [List.count_eq_zero]
    intro hmem
    rcases List.mem_map.mp hmem with ⟨c, hcmem, hn⟩
    have hsel : c.name ∈ selectedFeatures imp dfe := by
      have := (List.mem_filter.mp hcmem).2
      simpa using this
    rw [hn] at hsel
    exact salePrice_not_selected imp dfe hsel
  rw [h1, Nat.zero_add]
  exact count_names_filter dfe _ "SalePrice" (fun c hc => by rw [hc]; decide)

lemma clean_names_nodup {df out : Frame} (h : clean df = some out)
    (hnodup : (namesOf df).Nodup) : (namesOf out).Nodup := by
  rw [clean_names df out h]
  unfold namesOf dropHighMissing
  exact List.Nodup.sublist
    (List.Sublist.map Col.name ((List.filter_sublist _).trans (List.filter_sublist _)))
    hnodup

/-- C10: the target column `SalePrice` (present in the raw frame with
missing fraction at most 0.3 and distinct column labels) is present in
the cleaned frame, present in the encoded frame, excluded from the
feature matrix that importances are computed on — so it can never be
among the selected features — and occurs exactly once in the final
feature-selected frame. -/
theorem c10_saleprice_preserved (df : Frame) (c : Col) (hc : c ∈ df)
    (hname : c.name = "SalePrice") (hkeep : shouldDrop c = false)
    (hnodup : (namesOf df).Nodup) :
    ∀ cleaned, clean df = some cleaned →
      ("SalePrice" ∈ namesOf cleaned ∧
        ∀ encoded, encodeFrame cleaned = some encoded →
          ("SalePrice" ∈ namesOf encoded ∧
            "SalePrice" ∉ featureNames encoded ∧
            (∀ imp : String → Rat, "SalePrice" ∉ selectedFeatures imp encoded) ∧
            (∀ imp : String → Rat,
              (namesOf (selectStep imp encoded)).count "SalePrice" = 1))) := by
  intro cleaned hcl
  have hmem : "SalePrice" ∈ namesOf cleaned := by
    rw [clean_names df cleaned hcl]
    refine List.mem_map.mpr ⟨c, List.mem_filter.mpr ⟨?_, by simp [hname]⟩, hname⟩
    unfold dropHighMissing
    exact List.mem_filter.mpr ⟨hc, by simp [hkeep]⟩
  refine ⟨hmem, ?_⟩
  intro encoded henc
  have hcount1 : (namesOf cleaned).count "SalePrice" = 1 :=
    List.count_eq_one_of_mem (clean_names_nodup hcl hnodup) hmem
  have hcnt : (namesOf encoded).count "SalePrice" = 1 :=
    (encodeFrame_salePrice_count henc).trans hcount1
  have hmem2 : "SalePrice" ∈ namesOf encoded := by
    rw [← List.count_pos_iff, hcnt]
    norm_num
  exact ⟨hmem2, salePrice_not_featureNames encoded, fun imp => salePrice_not_selected imp encoded,
    fun imp => (selectStep_salePrice_count imp encoded).trans hcnt⟩

/-- The `SalePrice` column of `exRawFull`. -/
def exColSP : Col :=
  { name := "SalePrice", isCat := false,
    cells := [some (CellVal.num 100), some (CellVal.num 200)] }

/-- Witness for C10 at the concrete frame `exRawFull`. -/
theorem c10_saleprice_preserved_witness :
    exColSP ∈ exRawFull ∧ shouldDrop exColSP = false ∧
      (∀ cleaned, clean exRawFull = some cleaned →
        ("SalePrice" ∈ namesOf cleaned ∧
          ∀ encoded, encodeFrame cleaned = some encoded →
            ("SalePrice" ∈ namesOf encoded ∧
              "SalePrice" ∉ featureNames encoded ∧
              (∀ imp : String → Rat, "SalePrice" ∉ selectedFeatures imp encoded) ∧
              (∀ imp : String → Rat,
                (namesOf (selectStep imp encoded)).count "SalePrice" = 1)))) :=
  ⟨by decide, by decide,
    c10_saleprice_preserved exRawFull exColSP (by decide) (by decide) (by decide) (by decide)⟩

/-! ## C8: the Evaluator -/

/-- `mean_absolute_error(y_test, pred)`: the mean of the absolute
componentwise differences. -/
def mean_absolute_error (y p : List Rat) : Rat :=
  ((y.zip p).map (fun ab => |ab.1 - ab.2|)).sum / (y.length : Rat)

/-- `mean_squared_error(y_test, pred)`: the mean of the squared
componentwise differences. -/
def mean_squared_error (y p : List Rat) : Rat :=
  ((y.zip p).map (fun ab => (ab.1 - ab.2) ^ 2)).sum / (y.length : Rat)

/-- The mean of a vector. -/
def meanOf (y : List Rat) : Rat := y.sum / (y.length : Rat)

/-- `r2_score(y_test, pred)`: one minus the ratio of the residual sum
of squares to the total sum of squares. -/
def r2_score (y p : List Rat) : Rat :=
  1 - ((y.zip p).map (fun ab => (ab.1 - ab.2) ^ 2)).sum /
    ((y.map (fun a => (a - meanOf y) ^ 2)).sum)

/-- `eval_metrics(y_test, pred)`: the metrics the notebook prints.
The rational triple carries MAE, MSE and R²; the fourth printed
metric, RMSE, is `sqrt(mse)` and is characterized in
`c8_eval_metrics` as the nonnegative real whose square is the MSE. -/
def eval_metrics (y p : List Rat) : Rat × Rat × Rat :=
  (mean_absolute_error y p, mean_squared_error y p, r2_score y p)

/-- C8: the Evaluator is a pure, stateless function of the
`(actual, predicted)` vectors — equal inputs give equal outputs — it
produces the four scalar metrics, its MSE is nonnegative, and the
RMSE it computes (`sqrt(mse)`) squares back exactly to its MSE. -/
theorem c8_eval_metrics (y p y2 p2 : List Rat) (hy : y2 = y) (hp : p2 = p)
    (hlen : y.length = p.length) (hne : y ≠ []) :
    eval_metrics y2 p2 = eval_metrics y p ∧
      0 ≤ mean_squared_error y p ∧
      Real.sqrt ((mean_squared_error y p : Rat) : Real) ^ 2 =
        ((mean_squared_error y p : Rat) : Real) := by
  subst y2
  subst p2
  have hmse : 0 ≤ mean_squared_error y p := by
    unfold mean_squared_error
    apply div_nonneg
    · apply List.sum_nonneg
      intro x hx
      rcases List.mem_map.mp hx with ⟨ab, -, rfl⟩
      exact sq_nonneg _
    · exact Nat.cast_nonneg _
  refine ⟨rfl, hmse, ?_⟩
  rw [Real.sq_sqrt]
  exact_mod_cast hmse

/-- Witness for C8 at the concrete vectors `[1, 2]` and `[1, 3]`. -/
theorem c8_eval_metrics_witness :
    eval_metrics [1, 2] [1, 3] = eval_metrics [1, 2] [1, 3] ∧
      0 ≤ mean_squared_error [1, 2] [1, 3] ∧
      Real.sqrt ((mean_squared_error [1, 2] [1, 3] : Rat) : Real) ^ 2 =
        ((mean_squared_error [1, 2] [1, 3] : Rat) : Real) :=
  c8_eval_metrics [1, 2] [1, 3] [1, 2] [1, 3] rfl rfl (by decide) (by decide)

/-! ## C9: refitting with the tuned parameters only -/

/-- The constructor arguments of a `LogisticRegression` estimator; a
`none` field is an argument not passed, so the library default
applies to it. -/
structure LogisticRegressionArgs where
  C : Option Rat
  solver : Option String
deriving DecidableEq, Repr

/-- The solver the estimator actually uses: the `solver` argument when
passed, otherwise scikit-learn's default `lbfgs`. -/
def lrSolverUsed (m : LogisticRegressionArgs) : String := m.solver.getD "lbfgs"

/-- `param_grid_lr = {'C': [0.001, 0.01, 0.1, 1, 10, 100, 1000]}`:
the only tuned key is `C`. -/
def param_grid_lr : List Rat := [1/1000, 1/100, 1/10, 1, 10, 100, 1000]

/-- `estimator_lr = LogisticRegression(solver='liblinear')`. -/
def estimator_lr : LogisticRegressionArgs :=
  { C := none
    solver := some "liblinear" }

/-- `best_lr_model = LogisticRegression(**best_params_lr)`: only the
tuned grid key `C` is passed; `solver` is not. -/
def best_lr_model (c : Rat) : LogisticRegressionArgs :=
  { C := some c
    solver := none }

/-- The constructor arguments of a `CatBoostRegressor` estimator. -/
structure CatBoostArgs where
  depth : Option Rat
  learning_rate : Option Rat
  iterations : Option Rat
  loss_function : Option String
  cat_features : Option (List Nat)
deriving DecidableEq, Repr

/-- The loss the estimator actually optimizes: the `loss_function`
argument when passed, otherwise CatBoostRegressor's default `RMSE`. -/
def catLossUsed (m : CatBoostArgs) : String := m.loss_function.getD "RMSE"

/-- `param_grid_cat['depth'] = [6, 8, 10]`. -/
def param_grid_cat_depth : List Rat := [6, 8, 10]

/-- `param_grid_cat['learning_rate'] = [0.01, 0.05, 0.1]`. -/
def param_grid_cat_lr : List Rat := [1/100, 1/20, 1/10]

/-- `param_grid_cat['iterations'] = [50, 100, 200]`. -/
def param_grid_cat_iterations : List Rat := [50, 100, 200]

/-- `estimator_cat = CatBoostRegressor(loss_function='RMSE',
cat_features=categorical_features_indices)`. -/
def estimator_cat (idx : List Nat) : CatBoostArgs :=
  { depth := none
    learning_rate := none
    iterations := none
    loss_function := some "RMSE"
    cat_features := some idx }

/-- `best_cat_model = CatBoostRegressor(**best_params_cat,
cat_features=categorical_features_indices)`: the tuned grid keys and
the categorical indices are passed; `loss_function` is not. -/
def best_cat_model (d lr it : Rat) (idx : List Nat) : CatBoostArgs :=
  { depth := some d
    learning_rate := some lr
    iterations := some it
    loss_function := none
    cat_features := some idx }

/-- C9: each final refitted model is constructed from the tuned grid
parameters only — the `liblinear` solver and the `RMSE` loss that were
fixed on the grid-search estimators are not passed to the final
estimators, which therefore fall back to the library defaults for
them — while the categorical feature indices are passed again to the
final CatBoost estimator. -/
theorem c9_refit_args (c d lr it : Rat) (idx : List Nat)
    (hcg : c ∈ param_grid_lr) (hd : d ∈ param_grid_cat_depth)
    (hlr : lr ∈ param_grid_cat_lr) (hit : it ∈ param_grid_cat_iterations) :
    estimator_lr.solver = some "liblinear" ∧
      (best_lr_model c).solver = none ∧
      lrSolverUsed (best_lr_model c) = "lbfgs" ∧
      (best_lr_model c).C = some c ∧
      (estimator_cat idx).loss_function = some "RMSE" ∧
      (best_cat_model d lr it idx).loss_function = none ∧
      catLossUsed (best_cat_model d lr it idx) = "RMSE" ∧
      (best_cat_model d lr it idx).cat_features = some idx :=
  ⟨rfl, rfl, rfl, rfl, rfl, rfl, rfl, rfl⟩

/-- Witness for C9 at concrete grid values. -/
theorem c9_refit_args_witness :
    estimator_lr.solver = some "liblinear" ∧
      (best_lr_model 1).solver = none ∧
      lrSolverUsed (best_lr_model 1) = "lbfgs" ∧
      (best_lr_model 1).C = some 1 ∧
      (estimator_cat [0]).loss_function = some "RMSE" ∧
      (best_cat_model 6 (1/100) 50 [0]).loss_function = none ∧
      catLossUsed (best_cat_model 6 (1/100) 50 [0]) = "RMSE" ∧
      (best_cat_model 6 (1/100) 50 [0]).cat_features = some [0] :=
  c9_refit_args 1 6 (1/100) 50 [0] (by decide) (by decide) (by decide) (by decide)
